import Mathlib

/-!
# Bounded connection queue and worker pool of the multithreaded web server

Shallow embedding of `part2/connection_queue.c` and of the worker and acceptor
loops of `part2/http_server.c`.

* C `int` values are `Int`; the cursors and the length of a queue stay within
  `[0, CAPACITY]`, so machine overflow plays no role.
* `connection_queue.h` is not part of the sources: `CAPACITY` is a parameter
  of every definition and the record `connection_queue_t` lists the fields the
  C code accesses.
* Every pthread or system call gets its return value from an explicit
  environment argument, and every function returns the list of calls and of
  shared-field accesses it performed, in program order.
* `pthread_cond_wait` gives up the lock, so the queue may be changed by other
  threads before it returns: each wake-up in the environment carries the
  queue contents found when the wait returns.  A function whose wait has no
  wake-up left is still blocked in `pthread_cond_wait`: its outcome has
  `ret = none`.
-/

namespace ConnectionQueue

/-- Shared fields of `connection_queue_t` (the lock and the two condition
variables are tracked through events). -/
inductive Field
  | client_fds | length | read_idx | write_idx | shutdown
  deriving DecidableEq, Repr

/-- Calls and shared-memory accesses, recorded in program order. -/
inductive Ev
  | memset
  | mutex_init | cond_init_full | cond_init_empty
  | mutex_destroy | cond_destroy_full | cond_destroy_empty
  | mutex_lock | mutex_unlock
  | cond_wait_full | cond_wait_empty
  | cond_signal_full | cond_signal_empty
  | cond_broadcast_full | cond_broadcast_empty
  | rd (f : Field)
  | wr (f : Field)
  | accept (sock : Int)
  | close (fd : Int)
  | read_http_request (fd : Int)
  | write_http_response (fd : Int)
  | pthread_create
  | pthread_join
  | sigaction | getaddrinfo | freeaddrinfo | socket | bind | listen
  | sigfillset | sigprocmask
  deriving DecidableEq, Repr

/-- Data fields of the C struct `connection_queue_t`; `client_fds` is the
array `int client_fds[CAPACITY]`. -/
structure connection_queue_t where
  client_fds : List Int
  length : Int
  read_idx : Int
  write_idx : Int
  shutdown : Int
  deriving DecidableEq, Repr

/-- Result of one queue function: `ret` is the C return value (`none` while
the caller is still blocked in `pthread_cond_wait`), `queue` the queue it
leaves behind, `trace` what it did. -/
structure Outcome where
  ret : Option Int
  queue : connection_queue_t
  trace : List Ev
  deriving DecidableEq, Repr

/-- Return values of the three pthread initialisers called by
`connection_queue_init`. -/
structure InitRc where
  mutex_init : Int
  cond_init_full : Int
  cond_init_empty : Int
  deriving DecidableEq, Repr

/-- Return values of `pthread_mutex_lock`, `pthread_cond_signal` and the final
`pthread_mutex_unlock` of one enqueue or dequeue. -/
structure Rc where
  lock : Int
  signal : Int
  unlock : Int
  deriving DecidableEq, Repr

/-- Return values of the two `pthread_cond_broadcast` calls of
`connection_queue_shutdown`. -/
structure ShutdownRc where
  broadcast_full : Int
  broadcast_empty : Int
  deriving DecidableEq, Repr

/-- One return of `pthread_cond_wait`: its return value and the queue found
once the lock is held again. -/
abbrev Wake := Int × connection_queue_t

/-- The queue after `memset(queue, 0, sizeof(connection_queue_t))`. -/
def zeroed (CAPACITY : Int) : connection_queue_t :=
  { client_fds := List.replicate CAPACITY.toNat 0
    length := 0
    read_idx := 0
    write_idx := 0
    shutdown := 0 }

/-- Embedding of `connection_queue_init` (connection_queue.c, lines 5-49). -/
def connection_queue_init (CAPACITY : Int) (rc : InitRc) : Outcome :=
  let queue := zeroed CAPACITY
  if rc.mutex_init ≠ 0 then
    ⟨some (-1), queue, [.memset, .mutex_init]⟩
  else if rc.cond_init_full ≠ 0 then
    ⟨some (-1), queue, [.memset, .mutex_init, .cond_init_full, .mutex_destroy]⟩
  else if rc.cond_init_empty ≠ 0 then
    ⟨some (-1), queue,
      [.memset, .mutex_init, .cond_init_full, .cond_init_empty, .mutex_destroy,
        .cond_destroy_full]⟩
  else
    ⟨some 0, queue, [.memset, .mutex_init, .cond_init_full, .cond_init_empty]⟩

/-- The loop `while (queue->length == CAPACITY)` of `connection_enqueue`
(lines 62-74): `.error` is a return from inside the loop (or a wait that has
not returned), `.ok` the queue with which the loop is left. -/
def enqueue_wait (CAPACITY : Int) :
    List Wake → connection_queue_t → List Ev → Except Outcome (connection_queue_t × List Ev)
  | [], queue, tr =>
    if queue.length = CAPACITY then
      .error ⟨none, queue, tr ++ [.rd .length, .cond_wait_full]⟩
    else .ok (queue, tr ++ [.rd .length])
  | (err, woken) :: rest, queue, tr =>
    if queue.length = CAPACITY then
      if err ≠ 0 then
        .error ⟨some (-1), woken, tr ++ [.rd .length, .cond_wait_full, .mutex_unlock]⟩
      else enqueue_wait CAPACITY rest woken (tr ++ [.rd .length, .cond_wait_full])
    else .ok (queue, tr ++ [.rd .length])

/-- Embedding of `connection_enqueue` (connection_queue.c, lines 51-110).
`%` on C ints truncates, hence `Int.tmod`. -/
def connection_enqueue (CAPACITY : Int) (rc : Rc) (wakes : List Wake)
    (queue : connection_queue_t) (connection_fd : Int) : Outcome :=
  if rc.lock ≠ 0 then ⟨some (-1), queue, [.mutex_lock]⟩
  else
    match enqueue_wait CAPACITY wakes queue [.mutex_lock] with
    | .error out => out
    | .ok (queue, tr) =>
      if queue.shutdown = 1 then
        ⟨some (-1), queue, tr ++ [.rd .shutdown, .mutex_unlock]⟩
      else
        let queue := { queue with
          client_fds := queue.client_fds.set queue.write_idx.toNat connection_fd }
        let queue := { queue with write_idx := Int.tmod (queue.write_idx + 1) CAPACITY }
        let queue := { queue with length := queue.length + 1 }
        let tr := tr ++ [.rd .shutdown, .rd .write_idx, .wr .client_fds, .rd .write_idx,
          .wr .write_idx, .rd .length, .wr .length, .cond_signal_empty, .mutex_unlock]
        if rc.signal ≠ 0 then ⟨some (-1), queue, tr⟩
        else if rc.unlock ≠ 0 then ⟨some (-1), queue, tr⟩
        else ⟨some 0, queue, tr⟩

/-- The loop `while (queue->length == 0)` of `connection_dequeue`
(lines 124-147). -/
def dequeue_wait :
    List Wake → connection_queue_t → List Ev → Except Outcome (connection_queue_t × List Ev)
  | [], queue, tr =>
    if queue.length = 0 then
      if queue.shutdown = 1 then
        .error ⟨some (-1), queue, tr ++ [.rd .length, .rd .shutdown, .mutex_unlock]⟩
      else .error ⟨none, queue, tr ++ [.rd .length, .rd .shutdown, .cond_wait_empty]⟩
    else .ok (queue, tr ++ [.rd .length])
  | (err, woken) :: rest, queue, tr =>
    if queue.length = 0 then
      if queue.shutdown = 1 then
        .error ⟨some (-1), queue, tr ++ [.rd .length, .rd .shutdown, .mutex_unlock]⟩
      else if err ≠ 0 then
        .error ⟨some (-1), woken,
          tr ++ [.rd .length, .rd .shutdown, .cond_wait_empty, .mutex_unlock]⟩
      else dequeue_wait rest woken (tr ++ [.rd .length, .rd .shutdown, .cond_wait_empty])
    else .ok (queue, tr ++ [.rd .length])

/-- Embedding of `connection_dequeue` (connection_queue.c, lines 112-173). -/
def connection_dequeue (CAPACITY : Int) (rc : Rc) (wakes : List Wake)
    (queue : connection_queue_t) : Outcome :=
  if rc.lock ≠ 0 then ⟨some (-1), queue, [.mutex_lock]⟩
  else
    match dequeue_wait wakes queue [.mutex_lock] with
    | .error out => out
    | .ok (queue, tr) =>
      let fd := queue.client_fds.getD queue.read_idx.toNat 0
      let queue := { queue with read_idx := Int.tmod (queue.read_idx + 1) CAPACITY }
      let queue := { queue with length := queue.length - 1 }
      let tr := tr ++ [.rd .read_idx, .rd .client_fds, .rd .read_idx, .wr .read_idx,
        .rd .length, .wr .length, .cond_signal_full, .mutex_unlock]
      if rc.signal ≠ 0 then ⟨some (-1), queue, tr⟩
      else if rc.unlock ≠ 0 then ⟨some (-1), queue, tr⟩
      else ⟨some fd, queue, tr⟩

/-- Embedding of `connection_queue_shutdown` (connection_queue.c,
lines 175-191). -/
def connection_queue_shutdown (rc : ShutdownRc) (queue : connection_queue_t) : Outcome :=
  let ret : Int := 0
  let queue := { queue with shutdown := 1 }
  let ret := if rc.broadcast_full ≠ 0 then -1 else ret
  let ret := if rc.broadcast_empty ≠ 0 then -1 else ret
  ⟨some ret, queue, [.wr .shutdown, .cond_broadcast_full, .cond_broadcast_empty]⟩

/-! ## Calls made one after the other -/

/-- One call on the shared queue, with the return values its pthread calls
get.  The calls of a sequence run one after the other, none of them in
flight while the next starts, so no wake-up ever arrives: a call that has to
wait stays blocked and leaves the queue as it found it. -/
inductive Call
  | enqueue (rc : Rc) (connection_fd : Int)
  | dequeue (rc : Rc)
  | shutdown (rc : ShutdownRc)
  deriving DecidableEq, Repr

/-- Outcome of one call of a sequence on the queue it finds. -/
def Call.run (CAPACITY : Int) (queue : connection_queue_t) : Call → Outcome
  | .enqueue rc connection_fd => connection_enqueue CAPACITY rc [] queue connection_fd
  | .dequeue rc => connection_dequeue CAPACITY rc [] queue
  | .shutdown rc => connection_queue_shutdown rc queue

/-- Queue left by a sequence of calls. -/
def exec (CAPACITY : Int) : connection_queue_t → List Call → connection_queue_t
  | queue, [] => queue
  | queue, c :: cs => exec CAPACITY (c.run CAPACITY queue).queue cs

/-- A call succeeded: an enqueue returned 0, a dequeue returned something
other than -1; a shutdown counts as succeeded whatever it returns. -/
def Call.succeeded (CAPACITY : Int) (queue : connection_queue_t) : Call → Bool
  | .enqueue rc connection_fd =>
    decide ((connection_enqueue CAPACITY rc [] queue connection_fd).ret = some 0)
  | .dequeue rc =>
    match (connection_dequeue CAPACITY rc [] queue).ret with
    | some fd => decide (fd ≠ -1)
    | none => false
  | .shutdown _ => true

/-- Every call of the sequence succeeded. -/
def allSucceeded (CAPACITY : Int) : connection_queue_t → List Call → Bool
  | _, [] => true
  | queue, c :: cs =>
    c.succeeded CAPACITY queue && allSucceeded CAPACITY (c.run CAPACITY queue).queue cs

/-- Handles passed to the enqueue calls that returned 0, in call order. -/
def enqueued (CAPACITY : Int) : connection_queue_t → List Call → List Int
  | _, [] => []
  | queue, c :: cs =>
    let rest := enqueued CAPACITY (c.run CAPACITY queue).queue cs
    match c with
    | .enqueue _ connection_fd =>
      if (c.run CAPACITY queue).ret = some 0 then connection_fd :: rest else rest
    | _ => rest

/-- Handles returned by the dequeue calls that returned something other than
-1, in call order. -/
def dequeued (CAPACITY : Int) : connection_queue_t → List Call → List Int
  | _, [] => []
  | queue, c :: cs =>
    let rest := dequeued CAPACITY (c.run CAPACITY queue).queue cs
    match c, (c.run CAPACITY queue).ret with
    | .dequeue _, some fd => if fd = -1 then rest else fd :: rest
    | _, _ => rest

/-- Return values of successive dequeue calls, one per entry of `rcs`. -/
def drain (CAPACITY : Int) : List Rc → connection_queue_t → List (Option Int)
  | [], _ => []
  | rc :: rcs, queue =>
    (connection_dequeue CAPACITY rc [] queue).ret ::
      drain CAPACITY rcs (connection_dequeue CAPACITY rc [] queue).queue

/-- Handles held by the queue, oldest first: the `length` slots of the ring
starting at `read_idx`. -/
def contents (CAPACITY : Int) (queue : connection_queue_t) : List Int :=
  (List.range queue.length.toNat).map fun (i : Nat) =>
    queue.client_fds.getD ((queue.read_idx + (i : Int)) % CAPACITY).toNat 0

/-- Every pthread call of an enqueue or dequeue returns 0. -/
def Rc.ok : Rc := ⟨0, 0, 0⟩

/-- Queue after the three assignments of lines 87-89 of `connection_enqueue`. -/
def pushed (CAPACITY : Int) (queue : connection_queue_t) (connection_fd : Int) :
    connection_queue_t :=
  { client_fds := queue.client_fds.set queue.write_idx.toNat connection_fd
    length := queue.length + 1
    read_idx := queue.read_idx
    write_idx := Int.tmod (queue.write_idx + 1) CAPACITY
    shutdown := queue.shutdown }

/-- Queue after the assignments of lines 151-152 of `connection_dequeue`. -/
def popped (CAPACITY : Int) (queue : connection_queue_t) : connection_queue_t :=
  { client_fds := queue.client_fds
    length := queue.length - 1
    read_idx := Int.tmod (queue.read_idx + 1) CAPACITY
    write_idx := queue.write_idx
    shutdown := queue.shutdown }

/-- Consistency of the ring: the array has `CAPACITY` slots, the length and
the read cursor are in range, and the write cursor is `length` slots after
the read cursor. -/
structure WellFormed (CAPACITY : Int) (queue : connection_queue_t) : Prop where
  size : queue.client_fds.length = CAPACITY.toNat
  length_nonneg : 0 ≤ queue.length
  length_le : queue.length ≤ CAPACITY
  read_nonneg : 0 ≤ queue.read_idx
  read_lt : queue.read_idx < CAPACITY
  write_eq : queue.write_idx = (queue.read_idx + queue.length) % CAPACITY

/-- The queues an operation can observe: the one found when the lock is
taken and the ones found after each wake-up. -/
def observed (queue : connection_queue_t) (wakes : List Wake) : List connection_queue_t :=
  queue :: wakes.map Prod.snd

/-! ## The server: worker and acceptor (`part2/http_server.c`) -/

/-- Return values of the three destroy calls of `connection_queue_free`. -/
structure FreeRc where
  mutex_destroy : Int
  cond_destroy_full : Int
  cond_destroy_empty : Int
  deriving DecidableEq, Repr

/-- Embedding of `connection_queue_free` (connection_queue.c, lines 193-212). -/
def connection_queue_free (rc : FreeRc) (queue : connection_queue_t) : Outcome :=
  let ret : Int := 0
  let ret := if rc.mutex_destroy ≠ 0 then -1 else ret
  let ret := if rc.cond_destroy_full ≠ 0 then -1 else ret
  let ret := if rc.cond_destroy_empty ≠ 0 then -1 else ret
  ⟨some ret, queue, [.mutex_destroy, .cond_destroy_full, .cond_destroy_empty]⟩

/-- Calls made by one `connection_queue_free`, whatever they return. -/
def free_trace : List Ev := [.mutex_destroy, .cond_destroy_full, .cond_destroy_empty]

/-- The constant `N_THREADS` of http_server.c (line 17). -/
def N_THREADS : Nat := 5

/-- The errno value `EINTR` of the system headers (4 on Linux). -/
def EINTR : Int := 4

/-- What one iteration of the worker loop meets: the shared queue found by
`connection_dequeue` with the results of its pthread calls and its wake-ups,
the value of the global `keep_going` when the iteration reads it, and the
return values of the two handler calls and of `close`. -/
structure WorkerIter where
  queue : connection_queue_t
  rc : Rc
  wakes : List Wake
  keep_going : Int
  read_http_request : Int
  write_http_response : Int
  close : Int
  deriving DecidableEq, Repr

/-- Value returned by `thread_func`: `NULL` or the pointer `err_res`. -/
inductive WorkerRet
  | null | err_res
  deriving DecidableEq, Repr

/-- Result of a worker: `ret = none` while it has not returned (blocked in
`connection_dequeue`, or about to dequeue again). -/
structure WorkerOutcome where
  ret : Option WorkerRet
  trace : List Ev
  deriving DecidableEq, Repr

/-- Embedding of `thread_func` (http_server.c, lines 29-69); `tr` is what the
worker has done so far. -/
def thread_func (CAPACITY : Int) : List WorkerIter → List Ev → WorkerOutcome
  | [], tr => ⟨none, tr⟩
  | it :: rest, tr =>
    let out := connection_dequeue CAPACITY it.rc it.wakes it.queue
    let tr := tr ++ out.trace
    match out.ret with
    | none => ⟨none, tr⟩
    | some client_fd =>
      if client_fd = -1 then
        if it.keep_going = 0 then ⟨some .null, tr⟩
        else ⟨some .null, tr⟩
      else if it.read_http_request = -1 then
        if it.keep_going = 0 then ⟨some .null, tr ++ [.read_http_request client_fd]⟩
        else ⟨some .err_res, tr ++ [.read_http_request client_fd, .close client_fd]⟩
      else if it.write_http_response = -1 then
        ⟨some .err_res, tr ++ [.read_http_request client_fd,
          .write_http_response client_fd, .close client_fd]⟩
      else if it.close = -1 then
        ⟨some .err_res, tr ++ [.read_http_request client_fd,
          .write_http_response client_fd, .close client_fd]⟩
      else
        thread_func CAPACITY rest (tr ++ [.read_http_request client_fd,
          .write_http_response client_fd, .close client_fd])

/-- What one iteration of the accept loop of `main` meets: the value of
`keep_going` at the loop test, the return value of `accept` with `errno`, and
the shared queue found by `connection_enqueue` with the results of its
pthread calls and its wake-ups. -/
structure AcceptIter where
  keep_going : Int
  accept : Int
  errno : Int
  queue : connection_queue_t
  rc : Rc
  wakes : List Wake
  deriving DecidableEq, Repr

/-- Everything `main` gets from outside: `argc`, the return values of its
system calls, and what each iteration of the accept loop meets. `close` is
the return value of the last `close(sock_fd)` (line 213) and `queue_free`
gives those of the last `connection_queue_free` (line 206); the results of the
other calls of these two functions only decide what is printed. -/
structure MainEnv where
  argc : Int
  sigaction : Int
  getaddrinfo : Int
  socket : Int
  bind : Int
  listen : Int
  queue_init : InitRc
  sigfillset : Int
  sigprocmask_block : Int
  pthread_create : Nat → Int
  sigprocmask_restore : Int
  loop : List AcceptIter
  shutdown_queue : connection_queue_t
  shutdown : ShutdownRc
  pthread_join : Nat → Int
  queue_free : FreeRc
  close : Int

/-- Result of `main`: the exit status (`none` while it has not returned) and
what it did. -/
structure MainOutcome where
  ret : Option Int
  trace : List Ev
  deriving DecidableEq, Repr

/-- The loop creating the worker threads (http_server.c, lines 139-147), with
`n` threads still to create and `i` the loop counter. -/
def create_workers (sock_fd : Int) (pthread_create : Nat → Int) :
    Nat → Nat → List Ev → Except MainOutcome (List Ev)
  | 0, _, tr => .ok tr
  | n + 1, i, tr =>
    if pthread_create i = -1 then
      .error ⟨some 1, tr ++ [.pthread_create, .close sock_fd] ++ free_trace⟩
    else create_workers sock_fd pthread_create n (i + 1) (tr ++ [.pthread_create])

/-- The accept loop (http_server.c, lines 158-177): `.ok` is the value of
`ret_val` with which the loop is left, `.error` a loop that has not ended
(blocked in `connection_enqueue`, or about to test `keep_going` again). -/
def accept_loop (CAPACITY sock_fd : Int) :
    List AcceptIter → Int → List Ev → Except MainOutcome (Int × List Ev)
  | [], _, tr => .error ⟨none, tr⟩
  | it :: rest, ret_val, tr =>
    if it.keep_going = 0 then .ok (ret_val, tr)
    else
      let client_fd := it.accept
      let tr := tr ++ [.accept sock_fd]
      if client_fd = -1 then
        if it.errno ≠ EINTR then .ok (1, tr ++ [.close sock_fd])
        else .ok (ret_val, tr)
      else
        let out := connection_enqueue CAPACITY it.rc it.wakes it.queue client_fd
        match out.ret with
        | none => .error ⟨none, tr ++ out.trace⟩
        | some r =>
          if r = -1 then
            accept_loop CAPACITY sock_fd rest 1
              (tr ++ out.trace ++ [.close sock_fd] ++ free_trace)
          else accept_loop CAPACITY sock_fd rest ret_val (tr ++ out.trace)

/-- The loop joining the worker threads (http_server.c, lines 200-203): the
value of `ret_val` after it. -/
def join_workers (pthread_join : Nat → Int) : Nat → Nat → Int → Int
  | 0, _, ret_val => ret_val
  | n + 1, i, ret_val =>
    join_workers pthread_join n (i + 1) (if pthread_join i ≠ 0 then 1 else ret_val)

/-- Embedding of `main` (http_server.c, lines 73-216). -/
def main (CAPACITY : Int) (env : MainEnv) : MainOutcome :=
  if env.argc ≠ 3 then ⟨some 1, []⟩
  else if env.sigaction = -1 then ⟨some 1, [.sigfillset, .sigaction]⟩
  else if env.getaddrinfo ≠ 0 then ⟨some 1, [.sigfillset, .sigaction, .getaddrinfo]⟩
  else
    let sock_fd := env.socket
    if sock_fd = -1 then
      ⟨some 1, [.sigfillset, .sigaction, .getaddrinfo, .socket, .freeaddrinfo]⟩
    else if env.bind = -1 then
      ⟨some 1, [.sigfillset, .sigaction, .getaddrinfo, .socket, .bind, .freeaddrinfo,
        .close sock_fd]⟩
    else if env.listen = -1 then
      ⟨some 1, [.sigfillset, .sigaction, .getaddrinfo, .socket, .bind, .freeaddrinfo,
        .listen, .close sock_fd]⟩
    else
      let tr := [.sigfillset, .sigaction, .getaddrinfo, .socket, .bind, .freeaddrinfo,
        .listen] ++
        (connection_queue_init CAPACITY env.queue_init).trace
      if env.sigfillset = -1 then ⟨some 1, tr ++ [.sigfillset, .close sock_fd]⟩
      else if env.sigprocmask_block = -1 then
        ⟨some 1, tr ++ [.sigfillset, .sigprocmask, .close sock_fd]⟩
      else
        match create_workers sock_fd env.pthread_create N_THREADS 0
            (tr ++ [.sigfillset, .sigprocmask]) with
        | .error out => out
        | .ok tr =>
          if env.sigprocmask_restore = -1 then ⟨some 1, tr ++ [.sigprocmask, .close sock_fd]⟩
          else
            match accept_loop CAPACITY sock_fd env.loop 0 (tr ++ [.sigprocmask]) with
            | .error out => out
            | .ok (ret_val, tr) =>
              if ret_val ≠ 0 then ⟨some 1, tr ++ free_trace ++ [.close sock_fd]⟩
              else
                let out := connection_queue_shutdown env.shutdown env.shutdown_queue
                if out.ret = some (-1) then
                  ⟨some 1, tr ++ out.trace ++ free_trace ++ [.close sock_fd]⟩
                else
                  let ret_val := join_workers env.pthread_join N_THREADS 0 ret_val
                  let tr := tr ++ out.trace ++ List.replicate N_THREADS .pthread_join
                  if (connection_queue_free env.queue_free out.queue).ret = some (-1) then
                    ⟨some 1, tr ++ free_trace ++ [.close sock_fd]⟩
                  else if env.close = -1 then
                    ⟨some 1, tr ++ free_trace ++ [.close sock_fd]⟩
                  else ⟨some ret_val, tr ++ free_trace ++ [.close sock_fd]⟩

/-- A queue of capacity 5 holding the single handle `fd`. -/
def holding (fd : Int) : connection_queue_t := ⟨[fd, 0, 0, 0, 0], 1, 0, 1, 0⟩

/-- An environment of `main` in which every call succeeds, `socket` returns
descriptor 3 and the accept loop meets the iterations `loop`. -/
def quietEnv (queue_init : InitRc) (loop : List AcceptIter) : MainEnv :=
  { argc := 3, sigaction := 0, getaddrinfo := 0, socket := 3, bind := 0, listen := 0
    queue_init := queue_init, sigfillset := 0, sigprocmask_block := 0
    pthread_create := fun _ => 0, sigprocmask_restore := 0, loop := loop
    shutdown_queue := zeroed 5, shutdown := ⟨0, 0⟩, pthread_join := fun _ => 0
    queue_free := ⟨0, 0, 0⟩, close := 0 }

/-! ## Lock discipline on traces -/

/-- The events of `s` are neither `pthread_mutex_lock` nor
`pthread_mutex_unlock` calls. -/
def lockFree (s : List Ev) : Prop :=
  ∀ e ∈ s, e ≠ Ev.mutex_lock ∧ e ≠ Ev.mutex_unlock

/-- Every access to a shared field recorded in the trace happens while the
queue lock is held; `held` tells whether it is held before the first event.
The lock is held from a `pthread_mutex_lock` call to the next
`pthread_mutex_unlock` call (`pthread_cond_wait` returns with the lock held
again; a function whose `pthread_mutex_lock` fails returns at once, so
nothing follows that call in its trace). -/
def guarded : Bool → List Ev → Bool
  | _, [] => true
  | _, .mutex_lock :: tr => guarded true tr
  | _, .mutex_unlock :: tr => guarded false tr
  | held, .rd _ :: tr => held && guarded held tr
  | held, .wr _ :: tr => held && guarded held tr
  | held, _ :: tr => guarded held tr

/-! ## The queue: auxiliary facts -/

theorem enqueue_queue (C : Int) (rc : Rc) (q : connection_queue_t) (fd : Int) :
    (connection_enqueue C rc [] q fd).queue =
      if rc.lock = 0 ∧ q.length ≠ C ∧ q.shutdown ≠ 1 then pushed C q fd else q := by
  by_cases h1 : rc.lock = 0 <;> by_cases h2 : q.length = C <;> by_cases h3 : q.shutdown = 1 <;>
    by_cases h4 : rc.signal = 0 <;> by_cases h5 : rc.unlock = 0 <;>
    simp [connection_enqueue, enqueue_wait, pushed, *]

theorem enqueue_ret_zero (C : Int) (rc : Rc) (q : connection_queue_t) (fd : Int) :
    (connection_enqueue C rc [] q fd).ret = some 0 ↔
      rc.lock = 0 ∧ q.length ≠ C ∧ q.shutdown ≠ 1 ∧ rc.signal = 0 ∧ rc.unlock = 0 := by
  by_cases h1 : rc.lock = 0 <;> by_cases h2 : q.length = C <;> by_cases h3 : q.shutdown = 1 <;>
    by_cases h4 : rc.signal = 0 <;> by_cases h5 : rc.unlock = 0 <;>
    simp [connection_enqueue, enqueue_wait, *]

theorem dequeue_queue (C : Int) (rc : Rc) (q : connection_queue_t) :
    (connection_dequeue C rc [] q).queue =
      if rc.lock = 0 ∧ q.length ≠ 0 then popped C q else q := by
  by_cases h1 : rc.lock = 0 <;> by_cases h2 : q.length = 0 <;> by_cases h3 : q.shutdown = 1 <;>
    by_cases h4 : rc.signal = 0 <;> by_cases h5 : rc.unlock = 0 <;>
    simp [connection_dequeue, dequeue_wait, popped, *]

theorem dequeue_ret (C : Int) (rc : Rc) (q : connection_queue_t) :
    (connection_dequeue C rc [] q).ret =
      if rc.lock ≠ 0 then some (-1)
      else if q.length = 0 then (if q.shutdown = 1 then some (-1) else none)
      else if rc.signal ≠ 0 ∨ rc.unlock ≠ 0 then some (-1)
      else some (q.client_fds.getD q.read_idx.toNat 0) := by
  by_cases h1 : rc.lock = 0 <;> by_cases h2 : q.length = 0 <;> by_cases h3 : q.shutdown = 1 <;>
    by_cases h4 : rc.signal = 0 <;> by_cases h5 : rc.unlock = 0 <;>
    simp [connection_dequeue, dequeue_wait, *]

theorem wf_zeroed {C : Int} (hC : 0 < C) : WellFormed C (zeroed C) := by
  refine ⟨by simp [zeroed], by simp [zeroed], by simp [zeroed]; omega, by simp [zeroed],
    by simp [zeroed]; omega, ?_⟩
  simp [zeroed]

theorem wf_write_nonneg {C : Int} {q : connection_queue_t} (h : WellFormed C q) :
    0 ≤ q.write_idx := by
  have hC : 0 < C := lt_of_le_of_lt h.read_nonneg h.read_lt
  rw [h.write_eq]; exact Int.emod_nonneg _ (by omega)

theorem wf_write_lt {C : Int} {q : connection_queue_t} (h : WellFormed C q) :
    q.write_idx < C := by
  have hC : 0 < C := lt_of_le_of_lt h.read_nonneg h.read_lt
  rw [h.write_eq]; exact Int.emod_lt_of_pos _ hC

theorem wf_pushed {C : Int} {q : connection_queue_t} (h : WellFormed C q)
    (hfull : q.length ≠ C) (fd : Int) : WellFormed C (pushed C q fd) := by
  have hC : 0 < C := lt_of_le_of_lt h.read_nonneg h.read_lt
  have hl := h.length_le
  have hn := h.length_nonneg
  refine ⟨by simp [pushed, h.size], by simp [pushed]; omega, by simp [pushed]; omega,
    h.read_nonneg, h.read_lt, ?_⟩
  show Int.tmod (q.write_idx + 1) C = (q.read_idx + (q.length + 1)) % C
  rw [Int.tmod_eq_emod (by have := wf_write_nonneg h; omega) (by omega), h.write_eq,
    Int.emod_add_emod, add_assoc]

theorem wf_popped {C : Int} {q : connection_queue_t} (h : WellFormed C q)
    (hempty : q.length ≠ 0) : WellFormed C (popped C q) := by
  have hC : 0 < C := lt_of_le_of_lt h.read_nonneg h.read_lt
  have hl := h.length_le
  have hn := h.length_nonneg
  have hr := h.read_nonneg
  have ht : Int.tmod (q.read_idx + 1) C = (q.read_idx + 1) % C :=
    Int.tmod_eq_emod (by omega) (by omega)
  refine ⟨h.size, by simp [popped]; omega, by simp [popped]; omega, ?_, ?_, ?_⟩
  · show 0 ≤ Int.tmod (q.read_idx + 1) C
    rw [ht]; exact Int.emod_nonneg _ (by omega)
  · show Int.tmod (q.read_idx + 1) C < C
    rw [ht]; exact Int.emod_lt_of_pos _ hC
  · show q.write_idx = (Int.tmod (q.read_idx + 1) C + (q.length - 1)) % C
    rw [ht, Int.emod_add_emod, h.write_eq]
    congr 1; omega

theorem wf_shutdown {C : Int} {q : connection_queue_t} (h : WellFormed C q)
    (rc : ShutdownRc) : WellFormed C (connection_queue_shutdown rc q).queue :=
  ⟨h.size, h.length_nonneg, h.length_le, h.read_nonneg, h.read_lt, h.write_eq⟩

theorem wf_run {C : Int} {q : connection_queue_t} (h : WellFormed C q) (c : Call) :
    WellFormed C (c.run C q).queue := by
  cases c with
  | enqueue rc fd =>
    simp only [Call.run, enqueue_queue]
    split_ifs with hc
    · exact wf_pushed h hc.2.1 fd
    · exact h
  | dequeue rc =>
    simp only [Call.run, dequeue_queue]
    split_ifs with hc
    · exact wf_popped h hc.2
    · exact h
  | shutdown rc => exact wf_shutdown h rc

theorem wf_exec {C : Int} (calls : List Call) :
    ∀ {q : connection_queue_t}, WellFormed C q → WellFormed C (exec C q calls) := by
  induction calls with
  | nil => intro q h; exact h
  | cons c cs ih => intro q h; exact ih (wf_run h c)

theorem contents_length (C : Int) (q : connection_queue_t) :
    (contents C q).length = q.length.toNat := by
  simp [contents]

/-- Slots of the ring that hold a handle are distinct from the slot the next
enqueue writes. -/
theorem ring_slot_ne {C r l i : Int} (hi : 0 ≤ i) (hil : i < l) (hl : l < C) :
    ((r + i) % C).toNat ≠ ((r + l) % C).toNat := by
  intro heq
  have h1 : 0 ≤ (r + i) % C := Int.emod_nonneg _ (by omega)
  have h2 : 0 ≤ (r + l) % C := Int.emod_nonneg _ (by omega)
  have h3 : (r + i) % C = (r + l) % C := by
    have := congrArg (fun n : Nat => (n : Int)) heq
    simpa [Int.toNat_of_nonneg h1, Int.toNat_of_nonneg h2] using this
  have h5 : (r + l - (r + i)) % C = 0 := by
    rw [Int.sub_emod, h3, sub_self]; simp
  have h6 : r + l - (r + i) = l - i := by ring
  rw [h6, Int.emod_eq_of_lt (by omega) (by omega)] at h5
  omega

theorem contents_pushed {C : Int} {q : connection_queue_t} (h : WellFormed C q)
    (hfull : q.length ≠ C) (fd : Int) :
    contents C (pushed C q fd) = contents C q ++ [fd] := by
  have hC : 0 < C := lt_of_le_of_lt h.read_nonneg h.read_lt
  have hl := h.length_le
  have hn := h.length_nonneg
  have hw0 := wf_write_nonneg h
  have hw1 := wf_write_lt h
  have hlen : (q.length + 1).toNat = q.length.toNat + 1 := by omega
  have hcast : ((q.length.toNat : Nat) : Int) = q.length := Int.toNat_of_nonneg hn
  unfold contents
  simp only [pushed, hlen, List.range_succ, List.map_append, List.map_cons, List.map_nil]
  congr 1
  · apply List.map_congr_left
    intro i hi
    rw [List.mem_range] at hi
    have hne : q.write_idx.toNat ≠ ((q.read_idx + (i : Int)) % C).toNat := by
      rw [h.write_eq]
      exact (ring_slot_ne (by omega) (by omega) (by omega)).symm
    simp only [List.getD_eq_getElem?_getD, List.getElem?_set_ne hne]
  · rw [hcast, ← h.write_eq]
    have : q.write_idx.toNat < q.client_fds.length := by rw [h.size]; omega
    simp [List.getD_eq_getElem?_getD, List.getElem?_set_self this]

theorem contents_popped {C : Int} {q : connection_queue_t} (h : WellFormed C q)
    (hempty : q.length ≠ 0) :
    contents C q = q.client_fds.getD q.read_idx.toNat 0 :: contents C (popped C q) := by
  have hC : 0 < C := lt_of_le_of_lt h.read_nonneg h.read_lt
  have hn := h.length_nonneg
  have hr := h.read_nonneg
  have hlen : q.length.toNat = (q.length - 1).toNat + 1 := by omega
  have ht : Int.tmod (q.read_idx + 1) C = (q.read_idx + 1) % C :=
    Int.tmod_eq_emod (by omega) (by omega)
  unfold contents
  simp only [popped]
  rw [hlen, List.range_succ_eq_map, List.map_cons, List.map_map]
  congr 1
  · simp [Int.emod_eq_of_lt hr h.read_lt]
  · apply List.map_congr_left
    intro i _
    simp only [Function.comp, ht, Int.emod_add_emod]
    congr 3
    push_cast
    ring

theorem init_queue (C : Int) (rc : InitRc) :
    (connection_queue_init C rc).queue = zeroed C := by
  unfold connection_queue_init
  split_ifs <;> rfl

theorem contents_zeroed (C : Int) : contents C (zeroed C) = [] := by
  simp [contents, zeroed]

theorem contents_shutdown (C : Int) (rc : ShutdownRc) (q : connection_queue_t) :
    contents C (connection_queue_shutdown rc q).queue = contents C q := rfl

/-- Along a sequence of successful calls, what was held at the start followed
by what was enqueued is what was dequeued followed by what is held at the
end. -/
theorem fifo_invariant {C : Int} (calls : List Call) :
    ∀ {q : connection_queue_t}, WellFormed C q → allSucceeded C q calls = true →
      contents C q ++ enqueued C q calls = dequeued C q calls ++ contents C (exec C q calls) := by
  induction calls with
  | nil => intro q _ _; simp [enqueued, dequeued, exec]
  | cons c cs ih =>
    intro q hq hs
    simp only [allSucceeded, Bool.and_eq_true] at hs
    obtain ⟨hc, hrest⟩ := hs
    have ih1 := ih (wf_run hq c) hrest
    cases c with
    | enqueue rc fd =>
      simp only [Call.succeeded, decide_eq_true_eq] at hc
      have hc2 := (enqueue_ret_zero C rc q fd).1 hc
      have hq2 : (connection_enqueue C rc [] q fd).queue = pushed C q fd := by
        rw [enqueue_queue, if_pos ⟨hc2.1, hc2.2.1, hc2.2.2.1⟩]
      simp only [Call.run] at ih1 hc
      simp only [enqueued, dequeued, exec, Call.run, hc, if_true]
      rw [← ih1, hq2, contents_pushed hq hc2.2.1 fd]
      simp
    | dequeue rc =>
      simp only [Call.succeeded] at hc
      simp only [Call.run] at ih1
      simp only [enqueued, dequeued, exec, Call.run]
      rw [dequeue_ret] at hc ⊢
      by_cases h1 : rc.lock = 0
      · by_cases h2 : q.length = 0
        · by_cases h3 : q.shutdown = 1 <;> simp [h1, h2, h3] at hc
        · by_cases h4 : rc.signal ≠ 0 ∨ rc.unlock ≠ 0
          · simp [h1, h2, h4] at hc
          · have hq2 : (connection_dequeue C rc [] q).queue = popped C q := by
              rw [dequeue_queue, if_pos ⟨h1, h2⟩]
            simp only [h1, h2, h4, ne_eq, not_true_eq_false, if_false, decide_eq_true_eq] at hc ⊢
            simp only [hc, if_false]
            rw [List.cons_append, ← ih1, hq2, contents_popped hq h2]
            simp
      · simp [h1] at hc
    | shutdown rc =>
      simp only [Call.run] at ih1
      simp only [enqueued, dequeued, exec, Call.run]
      rw [← ih1, contents_shutdown]

theorem enqueue_wait_spec (C : Int) (wakes : List Wake) :
    ∀ (q : connection_queue_t) (tr : List Ev),
      match enqueue_wait C wakes q tr with
      | .ok (q', _) => q' ∈ observed q wakes ∧ q'.length ≠ C
      | .error o => o.queue ∈ observed q wakes ∧ o.ret ≠ some 0 := by
  induction wakes with
  | nil =>
    intro q tr
    by_cases h : q.length = C <;> simp [enqueue_wait, observed, h]
  | cons w ws ih =>
    intro q tr
    obtain ⟨err, woken⟩ := w
    by_cases h : q.length = C
    · by_cases he : err = 0
      · have := ih woken (tr ++ [.rd .length, .cond_wait_full])
        simp only [enqueue_wait, h, he, if_true, ne_eq, not_true_eq_false, if_false]
        revert this
        split <;> simp [observed] <;> tauto
      · simp [enqueue_wait, observed, h, he]
    · simp [enqueue_wait, observed, h]

theorem dequeue_wait_spec (wakes : List Wake) :
    ∀ (q : connection_queue_t) (tr : List Ev),
      match dequeue_wait wakes q tr with
      | .ok (q', _) => q' ∈ observed q wakes ∧ q'.length ≠ 0
      | .error o => o.queue ∈ observed q wakes ∧ (o.ret = none ∨ o.ret = some (-1)) := by
  induction wakes with
  | nil =>
    intro q tr
    by_cases h : q.length = 0 <;> by_cases hs : q.shutdown = 1 <;>
      simp [dequeue_wait, observed, h, hs]
  | cons w ws ih =>
    intro q tr
    obtain ⟨err, woken⟩ := w
    by_cases h : q.length = 0
    · by_cases hs : q.shutdown = 1
      · simp [dequeue_wait, observed, h, hs]
      · by_cases he : err = 0
        · have := ih woken (tr ++ [.rd .length, .rd .shutdown, .cond_wait_empty])
          simp only [dequeue_wait, h, hs, he, if_true, ne_eq, not_true_eq_false, if_false]
          revert this
          split <;> simp [observed] <;> tauto
        · simp [dequeue_wait, observed, h, hs, he]
    · simp [dequeue_wait, observed, h]

/-- An enqueue that returns 0 has stored the handle in a queue it observed
with a free slot and no shutdown. -/
theorem enqueue_success (C : Int) (rc : Rc) (wakes : List Wake) (q : connection_queue_t)
    (fd : Int) (h : (connection_enqueue C rc wakes q fd).ret = some 0) :
    ∃ q' ∈ observed q wakes, q'.length ≠ C ∧ q'.shutdown ≠ 1 ∧
      (connection_enqueue C rc wakes q fd).queue = pushed C q' fd := by
  unfold connection_enqueue at h ⊢
  by_cases hl : rc.lock = 0
  · have hw := enqueue_wait_spec C wakes q [.mutex_lock]
    simp only [hl, ne_eq, not_true_eq_false, if_false] at h ⊢
    rcases hx : enqueue_wait C wakes q [.mutex_lock] with o | ⟨q', tr⟩
    · simp only [hx] at h hw
      exact absurd h hw.2
    · simp only [hx] at h hw ⊢
      by_cases hs : q'.shutdown = 1
      · simp [hs] at h
      · refine ⟨q', hw.1, hw.2, hs, ?_⟩
        simp only [hs, if_false]
        split_ifs <;> rfl
  · simp [hl] at h

/-- Whatever a dequeue does, it either leaves a queue it observed as it is, or
removes one handle from a queue it observed with non-zero length. -/
theorem dequeue_cases (C : Int) (rc : Rc) (wakes : List Wake) (q : connection_queue_t) :
    (connection_dequeue C rc wakes q).queue ∈ observed q wakes ∨
    ∃ q' ∈ observed q wakes, q'.length ≠ 0 ∧
      (connection_dequeue C rc wakes q).queue = popped C q' := by
  unfold connection_dequeue
  by_cases hl : rc.lock = 0
  · have hw := dequeue_wait_spec wakes q [.mutex_lock]
    simp only [hl, ne_eq, not_true_eq_false, if_false]
    rcases hx : dequeue_wait wakes q [.mutex_lock] with o | ⟨q', tr⟩
    · simp only [hx] at hw ⊢
      exact Or.inl hw.1
    · simp only [hx] at hw ⊢
      refine Or.inr ⟨q', hw.1, hw.2, ?_⟩
      split_ifs <;> rfl
  · left; simp [hl, observed]

theorem drain_shutdown {C : Int} (rcs : List Rc) :
    ∀ {q : connection_queue_t}, WellFormed C q → q.shutdown = 1 →
      (∀ rc ∈ rcs, rc = Rc.ok) → rcs.length = q.length.toNat + 1 →
      drain C rcs q = (contents C q).map some ++ [some (-1)] := by
  induction rcs with
  | nil => intro q _ _ _ hlen; simp at hlen
  | cons rc rcs ih =>
    intro q hq hs hok hlen
    have hrc : rc = Rc.ok := hok rc (List.mem_cons_self _ _)
    have hn := hq.length_nonneg
    subst hrc
    by_cases h0 : q.length = 0
    · have hnil : rcs = [] := by simpa [h0] using hlen
      subst hnil
      simp [drain, dequeue_ret, Rc.ok, h0, hs, contents]
    · have hq2 : (connection_dequeue C Rc.ok [] q).queue = popped C q := by
        rw [dequeue_queue, if_pos ⟨rfl, h0⟩]
      have hlen2 : rcs.length = (popped C q).length.toNat + 1 := by
        simp only [List.length_cons] at hlen
        show rcs.length = (q.length - 1).toNat + 1
        omega
      have ih1 := ih (wf_popped hq h0) (show (popped C q).shutdown = 1 from hs)
        (fun r hr => hok r (List.mem_cons_of_mem _ hr)) hlen2
      simp only [drain, hq2, ih1, contents_popped hq h0, List.map_cons, List.cons_append]
      simp [dequeue_ret, Rc.ok, h0]

/-- C2 as stated fails: capacity 5, enqueue 11 and 12, shutdown. If the
`pthread_cond_signal` of the first draining dequeue returns 22, that call
has already removed handle 11 and returns -1, so the three calls return -1,
12, -1 and handle 11 is never delivered; if instead its `pthread_mutex_lock`
returns 22, it returns -1 at once and the three calls return -1, 11, 12. -/
theorem drain_after_shutdown_counterexample :
    contents 5 (exec 5 (connection_queue_init 5 ⟨0, 0, 0⟩).queue
      [.enqueue Rc.ok 11, .enqueue Rc.ok 12]) = [11, 12] ∧
    drain 5 [⟨0, 22, 0⟩, Rc.ok, Rc.ok] (connection_queue_shutdown ⟨0, 0⟩
        (exec 5 (connection_queue_init 5 ⟨0, 0, 0⟩).queue
          [.enqueue Rc.ok 11, .enqueue Rc.ok 12])).queue =
      [some (-1), some 12, some (-1)] ∧
    drain 5 [⟨22, 0, 0⟩, Rc.ok, Rc.ok] (connection_queue_shutdown ⟨0, 0⟩
        (exec 5 (connection_queue_init 5 ⟨0, 0, 0⟩).queue
          [.enqueue Rc.ok 11, .enqueue Rc.ok 12])).queue =
      [some (-1), some 11, some 12] ∧
    drain 5 [⟨0, 22, 0⟩, Rc.ok, Rc.ok] (connection_queue_shutdown ⟨0, 0⟩
        (exec 5 (connection_queue_init 5 ⟨0, 0, 0⟩).queue
          [.enqueue Rc.ok 11, .enqueue Rc.ok 12])).queue ≠
      [some 11, some 12, some (-1)] := by
  decide

/-- C2 (amended): drain after shutdown. Take the queue reached from a fresh
one of positive CAPACITY by any sequence of calls; it holds `length` handles,
listed oldest first by `contents` (after successful calls these are the
enqueued handles not yet dequeued, in enqueue order). After
`connection_queue_shutdown`, provided every pthread call of the following
dequeues returns 0, `length + 1` dequeue calls return exactly those handles
in that order and then -1, none of them waiting. -/
theorem drain_after_shutdown (CAPACITY : Int) (hC : 0 < CAPACITY) (irc : InitRc)
    (calls : List Call) (src : ShutdownRc) (rcs : List Rc)
    (hok : ∀ rc ∈ rcs, rc = Rc.ok)
    (hlen : rcs.length =
      (exec CAPACITY (connection_queue_init CAPACITY irc).queue calls).length.toNat + 1) :
    drain CAPACITY rcs (connection_queue_shutdown src
        (exec CAPACITY (connection_queue_init CAPACITY irc).queue calls)).queue =
      (contents CAPACITY (exec CAPACITY (connection_queue_init CAPACITY irc).queue calls)).map
        some ++ [some (-1)] ∧
    (contents CAPACITY (exec CAPACITY (connection_queue_init CAPACITY irc).queue calls)).length
      = (exec CAPACITY (connection_queue_init CAPACITY irc).queue calls).length.toNat ∧
    (allSucceeded CAPACITY (connection_queue_init CAPACITY irc).queue calls = true →
      enqueued CAPACITY (connection_queue_init CAPACITY irc).queue calls =
        dequeued CAPACITY (connection_queue_init CAPACITY irc).queue calls ++
          contents CAPACITY (exec CAPACITY (connection_queue_init CAPACITY irc).queue calls)) := by
  rw [init_queue] at hlen ⊢
  have hwf : WellFormed CAPACITY (exec CAPACITY (zeroed CAPACITY) calls) :=
    wf_exec calls (wf_zeroed hC)
  refine ⟨?_, contents_length _ _, ?_⟩
  · rw [drain_shutdown rcs (wf_shutdown hwf src) rfl hok hlen, contents_shutdown]
  · intro hs
    have h := fifo_invariant calls (wf_zeroed hC) hs
    rw [contents_zeroed, List.nil_append] at h
    exact h

/-- Witness for C2 (amended): capacity 5; shutdown of the empty queue, then dequeue returns -1; enqueue 11 and 12, shutdown, then the dequeues return 11, 12 and -1. -/
theorem drain_after_shutdown_witness :
    (∀ rc ∈ [Rc.ok, Rc.ok, Rc.ok], rc = Rc.ok) ∧
    drain 5 [Rc.ok] (connection_queue_shutdown ⟨0, 0⟩
        (connection_queue_init 5 ⟨0, 0, 0⟩).queue).queue = [some (-1)] ∧
    drain 5 [Rc.ok, Rc.ok, Rc.ok] (connection_queue_shutdown ⟨0, 0⟩
        (exec 5 (connection_queue_init 5 ⟨0, 0, 0⟩).queue
          [.enqueue Rc.ok 11, .enqueue Rc.ok 12])).queue =
      [some 11, some 12, some (-1)] ∧
    contents 5 (exec 5 (connection_queue_init 5 ⟨0, 0, 0⟩).queue
      [.enqueue Rc.ok 11, .enqueue Rc.ok 12]) = [11, 12] :=
  ⟨by decide, by decide,
    (drain_after_shutdown 5 (by decide) ⟨0, 0, 0⟩ [.enqueue Rc.ok 11, .enqueue Rc.ok 12] ⟨0, 0⟩
      [Rc.ok, Rc.ok, Rc.ok] (by decide) (by decide)).1.trans (by decide),
    by decide⟩

/-- With the shutdown flag set and a free slot, an enqueue whose lock call
succeeds returns -1 without waiting and leaves the queue as it is. -/
theorem enqueue_shutdown_not_full (C : Int) (rc : Rc) (wakes : List Wake)
    (q : connection_queue_t) (fd : Int) (hl : rc.lock = 0) (hs : q.shutdown = 1)
    (hfull : q.length ≠ C) :
    connection_enqueue C rc wakes q fd =
      ⟨some (-1), q, [.mutex_lock, .rd .length, .rd .shutdown, .mutex_unlock]⟩ := by
  cases wakes <;> simp [connection_enqueue, enqueue_wait, hl, hs, hfull]

/-- With a full queue, an enqueue whose lock call succeeds calls
`pthread_cond_wait` whatever the shutdown flag is, and waits again after every
wake-up that finds the queue still full. -/
theorem enqueue_full_waits (C : Int) (rc : Rc) (q : connection_queue_t) (fd : Int)
    (hl : rc.lock = 0) (hfull : q.length = C) (n : Nat) :
    (connection_enqueue C rc (List.replicate n (0, q)) q fd).ret = none ∧
    (connection_enqueue C rc (List.replicate n (0, q)) q fd).queue = q := by
  have key : ∀ (n : Nat) (tr : List Ev), ∃ tr',
      enqueue_wait C (List.replicate n (0, q)) q tr = .error ⟨none, q, tr'⟩ := by
    intro n
    induction n with
    | zero =>
      intro tr
      exact ⟨tr ++ [.rd .length, .cond_wait_full], by simp [enqueue_wait, hfull]⟩
    | succ k ih =>
      intro tr
      obtain ⟨tr', h⟩ := ih (tr ++ [.rd .length, .cond_wait_full])
      exact ⟨tr', by simp [List.replicate_succ, enqueue_wait, hfull, h]⟩
  obtain ⟨tr', h⟩ := key n [.mutex_lock]
  simp [connection_enqueue, hl, h]

/-- C3 (the code departs from the claim): on the full queue of capacity 2
reached by two enqueues and a shutdown, `connection_enqueue` does not return
the shutdown error: it calls `pthread_cond_wait` and is blocked, and it waits
again after a wake-up that finds the queue unchanged; the shutdown flag is
read only once the queue has a free slot. -/
theorem enqueue_full_ignores_shutdown :
    (exec 2 (connection_queue_init 2 ⟨0, 0, 0⟩).queue
      [.enqueue Rc.ok 11, .enqueue Rc.ok 12, .shutdown ⟨0, 0⟩]) = ⟨[11, 12], 2, 0, 0, 1⟩ ∧
    connection_enqueue 2 Rc.ok [] ⟨[11, 12], 2, 0, 0, 1⟩ 13 =
      ⟨none, ⟨[11, 12], 2, 0, 0, 1⟩, [.mutex_lock, .rd .length, .cond_wait_full]⟩ ∧
    connection_enqueue 2 Rc.ok [(0, ⟨[11, 12], 2, 0, 0, 1⟩)] ⟨[11, 12], 2, 0, 0, 1⟩ 13 =
      ⟨none, ⟨[11, 12], 2, 0, 0, 1⟩,
        [.mutex_lock, .rd .length, .cond_wait_full, .rd .length, .cond_wait_full]⟩ ∧
    connection_enqueue 2 Rc.ok [(0, ⟨[11, 12], 1, 1, 0, 1⟩)] ⟨[11, 12], 2, 0, 0, 1⟩ 13 =
      ⟨some (-1), ⟨[11, 12], 1, 1, 0, 1⟩,
        [.mutex_lock, .rd .length, .cond_wait_full, .rd .length, .rd .shutdown,
          .mutex_unlock]⟩ := by
  decide

/-- C4: length bound. On a queue initialised with a positive CAPACITY, after
any sequence of enqueue, dequeue and shutdown calls (whatever their pthread
calls return) the length lies in [0, CAPACITY]. An enqueue that found the
queue full returns 0 only if some wake-up found it not full; without a
wake-up it never returns 0 and leaves the queue as it is. A dequeue either
leaves a queue it observed unchanged or decrements the length of a queue it
observed with non-zero length. -/
theorem length_bound (CAPACITY : Int) (hC : 0 < CAPACITY) (irc : InitRc) (calls : List Call) :
    (0 ≤ (exec CAPACITY (connection_queue_init CAPACITY irc).queue calls).length ∧
      (exec CAPACITY (connection_queue_init CAPACITY irc).queue calls).length ≤ CAPACITY) ∧
    (∀ (rc : Rc) (wakes : List Wake) (q : connection_queue_t) (fd : Int),
      q.length = CAPACITY → (connection_enqueue CAPACITY rc wakes q fd).ret = some 0 →
        ∃ w ∈ wakes, w.2.length ≠ CAPACITY) ∧
    (∀ (rc : Rc) (q : connection_queue_t) (fd : Int), q.length = CAPACITY →
      (connection_enqueue CAPACITY rc [] q fd).ret ≠ some 0 ∧
      (connection_enqueue CAPACITY rc [] q fd).queue = q) ∧
    (∀ (rc : Rc) (wakes : List Wake) (q : connection_queue_t),
      (connection_dequeue CAPACITY rc wakes q).queue ∈ observed q wakes ∨
      ∃ q' ∈ observed q wakes, q'.length ≠ 0 ∧
        (connection_dequeue CAPACITY rc wakes q).queue = popped CAPACITY q' ∧
        (popped CAPACITY q').length = q'.length - 1) := by
  refine ⟨?_, ?_, ?_, ?_⟩
  · rw [init_queue]
    have h := wf_exec (C := CAPACITY) calls (wf_zeroed hC)
    exact ⟨h.length_nonneg, h.length_le⟩
  · intro rc wakes q fd hfull hret
    obtain ⟨q', hmem, hne, _, _⟩ := enqueue_success CAPACITY rc wakes q fd hret
    simp only [observed, List.mem_cons, List.mem_map] at hmem
    rcases hmem with rfl | ⟨w, hw, rfl⟩
    · exact absurd hfull hne
    · exact ⟨w, hw, hne⟩
  · intro rc q fd hfull
    constructor
    · rw [Ne, enqueue_ret_zero]; tauto
    · rw [enqueue_queue, if_neg]; tauto
  · intro rc wakes q
    rcases dequeue_cases CAPACITY rc wakes q with h | ⟨q', hm, hne, heq⟩
    · exact Or.inl h
    · exact Or.inr ⟨q', hm, hne, heq, rfl⟩

/-- Witness for C4: capacity 2, three enqueues (the third one waits) and three dequeues (the third one waits). -/
theorem length_bound_witness :
    (0 : Int) < 2 ∧
    (0 ≤ (exec 2 (connection_queue_init 2 ⟨0, 0, 0⟩).queue
        [.enqueue Rc.ok 11, .enqueue Rc.ok 12, .enqueue Rc.ok 13, .dequeue Rc.ok,
          .dequeue Rc.ok, .dequeue Rc.ok]).length ∧
      (exec 2 (connection_queue_init 2 ⟨0, 0, 0⟩).queue
        [.enqueue Rc.ok 11, .enqueue Rc.ok 12, .enqueue Rc.ok 13, .dequeue Rc.ok,
          .dequeue Rc.ok, .dequeue Rc.ok]).length ≤ 2) :=
  ⟨by decide, (length_bound 2 (by decide) ⟨0, 0, 0⟩ _).1⟩

/-- C5 as stated fails: after two enqueues on a queue of capacity 2 both
cursors are 0 and the length is 2, so `(write_idx - read_idx) mod CAPACITY`
is 0, not the length. -/
theorem cursor_invariant_counterexample :
    (exec 2 (connection_queue_init 2 ⟨0, 0, 0⟩).queue
      [.enqueue Rc.ok 11, .enqueue Rc.ok 12]) = ⟨[11, 12], 2, 0, 0, 0⟩ ∧
    ((exec 2 (connection_queue_init 2 ⟨0, 0, 0⟩).queue
        [.enqueue Rc.ok 11, .enqueue Rc.ok 12]).write_idx -
      (exec 2 (connection_queue_init 2 ⟨0, 0, 0⟩).queue
        [.enqueue Rc.ok 11, .enqueue Rc.ok 12]).read_idx) % 2 ≠
      (exec 2 (connection_queue_init 2 ⟨0, 0, 0⟩).queue
        [.enqueue Rc.ok 11, .enqueue Rc.ok 12]).length := by
  decide

/-- C5 (amended): cursor invariant. On a queue initialised with a positive
CAPACITY, after any sequence of completed enqueue, dequeue and shutdown calls,
`read_idx` and `write_idx` lie in [0, CAPACITY) and
`(write_idx - read_idx) mod CAPACITY` equals `length mod CAPACITY`: it is the
length while the queue is not full, and 0 when the queue is full. -/
theorem cursor_invariant (CAPACITY : Int) (hC : 0 < CAPACITY) (irc : InitRc)
    (calls : List Call) :
    (0 ≤ (exec CAPACITY (connection_queue_init CAPACITY irc).queue calls).read_idx ∧
      (exec CAPACITY (connection_queue_init CAPACITY irc).queue calls).read_idx < CAPACITY) ∧
    (0 ≤ (exec CAPACITY (connection_queue_init CAPACITY irc).queue calls).write_idx ∧
      (exec CAPACITY (connection_queue_init CAPACITY irc).queue calls).write_idx < CAPACITY) ∧
    ((exec CAPACITY (connection_queue_init CAPACITY irc).queue calls).write_idx -
        (exec CAPACITY (connection_queue_init CAPACITY irc).queue calls).read_idx) % CAPACITY =
      (exec CAPACITY (connection_queue_init CAPACITY irc).queue calls).length % CAPACITY ∧
    ((exec CAPACITY (connection_queue_init CAPACITY irc).queue calls).length ≠ CAPACITY →
      ((exec CAPACITY (connection_queue_init CAPACITY irc).queue calls).write_idx -
          (exec CAPACITY (connection_queue_init CAPACITY irc).queue calls).read_idx) % CAPACITY =
        (exec CAPACITY (connection_queue_init CAPACITY irc).queue calls).length) ∧
    ((exec CAPACITY (connection_queue_init CAPACITY irc).queue calls).length = CAPACITY →
      ((exec CAPACITY (connection_queue_init CAPACITY irc).queue calls).write_idx -
          (exec CAPACITY (connection_queue_init CAPACITY irc).queue calls).read_idx) % CAPACITY =
        0) := by
  rw [init_queue]
  have h := wf_exec (C := CAPACITY) calls (wf_zeroed hC)
  generalize exec CAPACITY (zeroed CAPACITY) calls = q at h
  have hmod : (q.write_idx - q.read_idx) % CAPACITY = q.length % CAPACITY := by
    rw [h.write_eq, sub_eq_add_neg, Int.emod_add_emod]
    congr 1; ring
  refine ⟨⟨h.read_nonneg, h.read_lt⟩, ⟨wf_write_nonneg h, wf_write_lt h⟩, hmod, ?_, ?_⟩
  · intro hne
    rw [hmod]
    exact Int.emod_eq_of_lt h.length_nonneg (lt_of_le_of_ne h.length_le hne)
  · intro heq
    rw [hmod, heq]
    exact Int.emod_self

/-- Witness for C5 (amended): capacity 2, two enqueues and one dequeue. -/
theorem cursor_invariant_witness :
    (0 : Int) < 2 ∧
    ((exec 2 (connection_queue_init 2 ⟨0, 0, 0⟩).queue
        [.enqueue Rc.ok 11, .enqueue Rc.ok 12, .dequeue Rc.ok]).write_idx -
      (exec 2 (connection_queue_init 2 ⟨0, 0, 0⟩).queue
        [.enqueue Rc.ok 11, .enqueue Rc.ok 12, .dequeue Rc.ok]).read_idx) % 2 =
      (exec 2 (connection_queue_init 2 ⟨0, 0, 0⟩).queue
        [.enqueue Rc.ok 11, .enqueue Rc.ok 12, .dequeue Rc.ok]).length % 2 :=
  ⟨by decide, (cursor_invariant 2 (by decide) ⟨0, 0, 0⟩ _).2.2.1⟩

/-- C6: idempotent shutdown. For every queue and whatever the broadcasts
return, a second `connection_queue_shutdown` leaves the queue of the first one
as it is, and with the same broadcast results returns the same value; the call
sets the shutdown flag to 1, changes no other field, and performs exactly the
write of the flag and the two broadcasts, so it destroys no mutex or
condition variable. -/
theorem shutdown_idempotent (rc rc2 : ShutdownRc) (q : connection_queue_t) :
    (connection_queue_shutdown rc2 (connection_queue_shutdown rc q).queue).queue =
      (connection_queue_shutdown rc q).queue ∧
    (connection_queue_shutdown rc (connection_queue_shutdown rc q).queue).ret =
      (connection_queue_shutdown rc q).ret ∧
    (connection_queue_shutdown rc q).queue =
      ⟨q.client_fds, q.length, q.read_idx, q.write_idx, 1⟩ ∧
    (connection_queue_shutdown rc q).trace =
      [.wr .shutdown, .cond_broadcast_full, .cond_broadcast_empty] ∧
    Ev.mutex_destroy ∉ (connection_queue_shutdown rc q).trace ∧
    Ev.cond_destroy_full ∉ (connection_queue_shutdown rc q).trace ∧
    Ev.cond_destroy_empty ∉ (connection_queue_shutdown rc q).trace := by
  refine ⟨rfl, rfl, rfl, rfl, ?_, ?_, ?_⟩ <;> simp [connection_queue_shutdown]

/-! ## The worker and the acceptor -/

/-- C7 as stated fails: the worker dequeues handle 7, `read_http_request`
fails on it while `keep_going` is 1, and the worker closes 7 and returns its
error result; it takes the lock of the queue once only, so it never dequeues
handle 8, although no dequeue returned the shutdown error. -/
theorem handler_failure_counterexample :
    thread_func 5 [⟨holding 7, Rc.ok, [], 1, -1, 0, 0⟩, ⟨holding 8, Rc.ok, [], 1, 0, 0, 0⟩] [] =
      ⟨some .err_res,
        [.mutex_lock, .rd .length, .rd .read_idx, .rd .client_fds, .rd .read_idx,
          .wr .read_idx, .rd .length, .wr .length, .cond_signal_full, .mutex_unlock,
          .read_http_request 7, .close 7]⟩ ∧
    (connection_dequeue 5 Rc.ok [] (holding 7)).ret = some 7 ∧
    thread_func 5 [⟨holding 7, Rc.ok, [], 1, 0, -1, 0⟩, ⟨holding 8, Rc.ok, [], 1, 0, 0, 0⟩] [] =
      ⟨some .err_res,
        [.mutex_lock, .rd .length, .rd .read_idx, .rd .client_fds, .rd .read_idx,
          .wr .read_idx, .rd .length, .wr .length, .cond_signal_full, .mutex_unlock,
          .read_http_request 7, .write_http_response 7, .close 7]⟩ := by
  decide

/-- C7 (amended): what every outcome of one worker iteration does. While
`connection_dequeue` has not returned, the worker has not returned; when it
returns -1 the worker returns NULL. When it returns a handle: if
`read_http_request` fails while `keep_going` is non-zero, or
`write_http_response` fails, the worker closes the handle and returns its
error result; if `close` fails after both handler calls succeeded, it
returns its error result; if `read_http_request` fails while `keep_going` is
0, it returns NULL; in all these cases whatever the following iterations
would meet plays no role, so there is no further dequeue. Only when both
handler calls and `close` succeed does it go on to the next dequeue. -/
theorem handler_failure_ends_worker (CAPACITY : Int) (it : WorkerIter)
    (rest : List WorkerIter) (tr : List Ev) :
    ((connection_dequeue CAPACITY it.rc it.wakes it.queue).ret = none →
      thread_func CAPACITY (it :: rest) tr =
        ⟨none, tr ++ (connection_dequeue CAPACITY it.rc it.wakes it.queue).trace⟩) ∧
    ((connection_dequeue CAPACITY it.rc it.wakes it.queue).ret = some (-1) →
      thread_func CAPACITY (it :: rest) tr =
        ⟨some .null, tr ++ (connection_dequeue CAPACITY it.rc it.wakes it.queue).trace⟩) ∧
    (∀ fd : Int, (connection_dequeue CAPACITY it.rc it.wakes it.queue).ret = some fd →
      fd ≠ -1 →
      (it.read_http_request = -1 → it.keep_going ≠ 0 →
        thread_func CAPACITY (it :: rest) tr =
          ⟨some .err_res, tr ++ (connection_dequeue CAPACITY it.rc it.wakes it.queue).trace ++
            [.read_http_request fd, .close fd]⟩) ∧
      (it.read_http_request = -1 → it.keep_going = 0 →
        (thread_func CAPACITY (it :: rest) tr).ret = some .null ∧
        thread_func CAPACITY (it :: rest) tr = thread_func CAPACITY [it] tr) ∧
      (it.read_http_request ≠ -1 → it.write_http_response = -1 →
        thread_func CAPACITY (it :: rest) tr =
          ⟨some .err_res, tr ++ (connection_dequeue CAPACITY it.rc it.wakes it.queue).trace ++
            [.read_http_request fd, .write_http_response fd, .close fd]⟩) ∧
      (it.read_http_request ≠ -1 → it.write_http_response ≠ -1 → it.close = -1 →
        thread_func CAPACITY (it :: rest) tr =
          ⟨some .err_res, tr ++ (connection_dequeue CAPACITY it.rc it.wakes it.queue).trace ++
            [.read_http_request fd, .write_http_response fd, .close fd]⟩) ∧
      (it.read_http_request ≠ -1 → it.write_http_response ≠ -1 → it.close ≠ -1 →
        thread_func CAPACITY (it :: rest) tr =
          thread_func CAPACITY rest
            (tr ++ (connection_dequeue CAPACITY it.rc it.wakes it.queue).trace ++
              [.read_http_request fd, .write_http_response fd, .close fd]))) := by
  refine ⟨?_, ?_, ?_⟩
  · intro h
    simp [thread_func, h]
  · intro h
    simp [thread_func, h]
  · intro fd h hfd
    refine ⟨?_, ?_, ?_, ?_, ?_⟩
    · intro hr hk
      simp [thread_func, h, hfd, hr, hk]
    · intro hr hk
      simp [thread_func, h, hfd, hr, hk]
    · intro hr hw
      simp [thread_func, h, hfd, hr, hw]
    · intro hr hw hc
      simp [thread_func, h, hfd, hr, hw, hc]
    · intro hr hw hc
      simp [thread_func, h, hfd, hr, hw, hc]

/-- Witness for C7 (amended): the worker dequeues handle 7; when
`write_http_response` fails on it, and when `close` fails on it, the worker
returns its error result and never dequeues handle 8. -/
theorem handler_failure_ends_worker_witness :
    (connection_dequeue 5 Rc.ok [] (holding 7)).ret = some 7 ∧
    thread_func 5 [⟨holding 7, Rc.ok, [], 1, 0, -1, 0⟩, ⟨holding 8, Rc.ok, [], 1, 0, 0, 0⟩] [] =
      ⟨some .err_res, [] ++ (connection_dequeue 5 Rc.ok [] (holding 7)).trace ++
        [.read_http_request 7, .write_http_response 7, .close 7]⟩ ∧
    thread_func 5 [⟨holding 7, Rc.ok, [], 1, 0, 0, -1⟩, ⟨holding 8, Rc.ok, [], 1, 0, 0, 0⟩] [] =
      ⟨some .err_res, [] ++ (connection_dequeue 5 Rc.ok [] (holding 7)).trace ++
        [.read_http_request 7, .write_http_response 7, .close 7]⟩ :=
  ⟨by decide,
    ((handler_failure_ends_worker 5 ⟨holding 7, Rc.ok, [], 1, 0, -1, 0⟩
      [⟨holding 8, Rc.ok, [], 1, 0, 0, 0⟩] []).2.2 7 (by decide) (by decide)).2.2.1
        (by decide) (by decide),
    ((handler_failure_ends_worker 5 ⟨holding 7, Rc.ok, [], 1, 0, 0, -1⟩
      [⟨holding 8, Rc.ok, [], 1, 0, 0, 0⟩] []).2.2 7 (by decide) (by decide)).2.2.2.1
        (by decide) (by decide) (by decide)⟩

/-- C8 (the code departs from the claim): the worker dequeues handle 7,
`read_http_request` fails on it while `keep_going` is 0, and the worker
leaves its loop and returns NULL without any `close`; with `keep_going` set
to 1 the same iteration closes handle 7. -/
theorem worker_leaks_handle :
    (connection_dequeue 5 Rc.ok [] (holding 7)).ret = some 7 ∧
    thread_func 5 [⟨holding 7, Rc.ok, [], 0, -1, 0, 0⟩] [] =
      ⟨some .null,
        [.mutex_lock, .rd .length, .rd .read_idx, .rd .client_fds, .rd .read_idx,
          .wr .read_idx, .rd .length, .wr .length, .cond_signal_full, .mutex_unlock,
          .read_http_request 7]⟩ ∧
    Ev.close 7 ∉ (thread_func 5 [⟨holding 7, Rc.ok, [], 0, -1, 0, 0⟩] []).trace ∧
    (thread_func 5 [⟨holding 7, Rc.ok, [], 1, -1, 0, 0⟩] []).trace.count (Ev.close 7) = 1 := by
  decide

/-- C9 (the code departs from the claim): `accept` returns handle 7,
`connection_enqueue` fails on it (its `pthread_mutex_lock` returns 22) and
leaves the queue untouched, and `main` closes the listening socket 3 instead
of handle 7: it exits with status 1 and handle 7 is neither in the queue nor
closed. -/
theorem acceptor_drops_handle :
    connection_enqueue 5 ⟨22, 0, 0⟩ [] (zeroed 5) 7 = ⟨some (-1), zeroed 5, [.mutex_lock]⟩ ∧
    (main 5 (quietEnv ⟨0, 0, 0⟩
      [⟨1, 7, 0, zeroed 5, ⟨22, 0, 0⟩, []⟩, ⟨1, -1, 9, zeroed 5, Rc.ok, []⟩])).ret = some 1 ∧
    Ev.close 7 ∉ (main 5 (quietEnv ⟨0, 0, 0⟩
      [⟨1, 7, 0, zeroed 5, ⟨22, 0, 0⟩, []⟩, ⟨1, -1, 9, zeroed 5, Rc.ok, []⟩])).trace ∧
    (main 5 (quietEnv ⟨0, 0, 0⟩
      [⟨1, 7, 0, zeroed 5, ⟨22, 0, 0⟩, []⟩, ⟨1, -1, 9, zeroed 5, Rc.ok, []⟩])).trace.count
        (Ev.close 3) = 3 := by
  decide

/-- Return value and queue of `connection_queue_init`: 0 when the three
initialisers return 0, -1 otherwise, and in both cases a zeroed queue. -/
theorem connection_queue_init_spec (C : Int) (rc : InitRc) :
    (connection_queue_init C rc).ret =
      (if rc.mutex_init = 0 ∧ rc.cond_init_full = 0 ∧ rc.cond_init_empty = 0 then some 0
        else some (-1)) ∧
    (connection_queue_init C rc).queue.length = 0 ∧
    (connection_queue_init C rc).queue.read_idx = 0 ∧
    (connection_queue_init C rc).queue.write_idx = 0 ∧
    (connection_queue_init C rc).queue.shutdown = 0 := by
  rw [init_queue]
  refine ⟨?_, rfl, rfl, rfl, rfl⟩
  by_cases h1 : rc.mutex_init = 0 <;> by_cases h2 : rc.cond_init_full = 0 <;>
    by_cases h3 : rc.cond_init_empty = 0 <;> simp [connection_queue_init, h1, h2, h3]

/-- C10 (the code departs from the claim): `pthread_mutex_init` returns 12, so
`connection_queue_init` returns -1, but `main` does not look at that value:
with `keep_going` already 0 at the first loop test it still creates the five
worker threads and exits with status 0, and with one accepted connection it
also enqueues handle 7 on the queue that failed to initialise. -/
theorem failed_init_ignored :
    (connection_queue_init 5 ⟨12, 0, 0⟩).ret = some (-1) ∧
    (main 5 (quietEnv ⟨12, 0, 0⟩ [⟨0, 0, 0, zeroed 5, Rc.ok, []⟩])).ret = some 0 ∧
    (main 5 (quietEnv ⟨12, 0, 0⟩ [⟨0, 0, 0, zeroed 5, Rc.ok, []⟩])).trace.count
      Ev.pthread_create = 5 ∧
    (main 5 (quietEnv ⟨12, 0, 0⟩
      [⟨1, 7, 0, zeroed 5, Rc.ok, []⟩, ⟨0, 0, 0, zeroed 5, Rc.ok, []⟩])).ret = some 0 ∧
    Ev.wr Field.client_fds ∈ (main 5 (quietEnv ⟨12, 0, 0⟩
      [⟨1, 7, 0, zeroed 5, Rc.ok, []⟩, ⟨0, 0, 0, zeroed 5, Rc.ok, []⟩])).trace := by
  decide

/-! ## Lock discipline of the queue operations -/

theorem lockFree_append {s t : List Ev} (hs : lockFree s) (ht : lockFree t) :
    lockFree (s ++ t) := by
  intro e he
  rcases List.mem_append.1 he with h | h
  · exact hs e h
  · exact ht e h

/-- What the wait loop of `connection_enqueue` adds to the trace: events
other than lock and unlock calls, followed by one unlock call exactly when
the loop returns from the function. -/
theorem enqueue_wait_trace (C : Int) (wakes : List Wake) :
    ∀ (q : connection_queue_t) (tr : List Ev), ∃ s, lockFree s ∧
      match enqueue_wait C wakes q tr with
      | .ok (_, tr') => tr' = tr ++ s
      | .error o => (o.ret = none ∧ o.trace = tr ++ s) ∨
          (o.ret = some (-1) ∧ o.trace = tr ++ s ++ [.mutex_unlock]) := by
  induction wakes with
  | nil =>
    intro q tr
    by_cases h : q.length = C
    · exact ⟨[.rd .length, .cond_wait_full], by simp [lockFree], by simp [enqueue_wait, h]⟩
    · exact ⟨[.rd .length], by simp [lockFree], by simp [enqueue_wait, h]⟩
  | cons w ws ih =>
    intro q tr
    obtain ⟨err, woken⟩ := w
    by_cases h : q.length = C
    · by_cases he : err = 0
      · obtain ⟨s, hs, hm⟩ := ih woken (tr ++ [.rd .length, .cond_wait_full])
        refine ⟨[.rd .length, .cond_wait_full] ++ s,
          lockFree_append (by simp [lockFree]) hs, ?_⟩
        simp only [enqueue_wait, h, he, if_true, ne_eq, not_true_eq_false, if_false]
        rcases hx : enqueue_wait C ws woken (tr ++ [.rd .length, .cond_wait_full]) with
          o | ⟨q', tr'⟩
        · simp only [hx] at hm ⊢
          simpa [List.append_assoc] using hm
        · simp only [hx] at hm ⊢
          simpa [List.append_assoc] using hm
      · exact ⟨[.rd .length, .cond_wait_full], by simp [lockFree],
          by simp [enqueue_wait, h, he]⟩
    · exact ⟨[.rd .length], by simp [lockFree], by simp [enqueue_wait, h]⟩

/-- What the wait loop of `connection_dequeue` adds to the trace. -/
theorem dequeue_wait_trace (wakes : List Wake) :
    ∀ (q : connection_queue_t) (tr : List Ev), ∃ s, lockFree s ∧
      match dequeue_wait wakes q tr with
      | .ok (_, tr') => tr' = tr ++ s
      | .error o => (o.ret = none ∧ o.trace = tr ++ s) ∨
          (o.ret = some (-1) ∧ o.trace = tr ++ s ++ [.mutex_unlock]) := by
  induction wakes with
  | nil =>
    intro q tr
    by_cases h : q.length = 0
    · by_cases hs : q.shutdown = 1
      · exact ⟨[.rd .length, .rd .shutdown], by simp [lockFree],
          by simp [dequeue_wait, h, hs]⟩
      · exact ⟨[.rd .length, .rd .shutdown, .cond_wait_empty], by simp [lockFree],
          by simp [dequeue_wait, h, hs]⟩
    · exact ⟨[.rd .length], by simp [lockFree], by simp [dequeue_wait, h]⟩
  | cons w ws ih =>
    intro q tr
    obtain ⟨err, woken⟩ := w
    by_cases h : q.length = 0
    · by_cases hs : q.shutdown = 1
      · exact ⟨[.rd .length, .rd .shutdown], by simp [lockFree],
          by simp [dequeue_wait, h, hs]⟩
      · by_cases he : err = 0
        · obtain ⟨s, hsf, hm⟩ :=
            ih woken (tr ++ [.rd .length, .rd .shutdown, .cond_wait_empty])
          refine ⟨[.rd .length, .rd .shutdown, .cond_wait_empty] ++ s,
            lockFree_append (by simp [lockFree]) hsf, ?_⟩
          simp only [dequeue_wait, h, hs, he, if_true, ne_eq, not_true_eq_false, if_false]
          rcases hx : dequeue_wait ws woken
            (tr ++ [.rd .length, .rd .shutdown, .cond_wait_empty]) with o | ⟨q', tr'⟩
          · simp only [hx] at hm ⊢
            simpa [List.append_assoc] using hm
          · simp only [hx] at hm ⊢
            simpa [List.append_assoc] using hm
        · exact ⟨[.rd .length, .rd .shutdown, .cond_wait_empty], by simp [lockFree],
            by simp [dequeue_wait, h, hs, he]⟩
    · exact ⟨[.rd .length], by simp [lockFree], by simp [dequeue_wait, h]⟩

/-- Trace of `connection_enqueue` when its lock call succeeds: the lock call,
then events other than lock and unlock calls, then one unlock call if the
function has returned, none while it is still waiting. -/
theorem enqueue_trace_shape (C : Int) (rc : Rc) (wakes : List Wake) (q : connection_queue_t)
    (fd : Int) (hl : rc.lock = 0) :
    ∃ s, lockFree s ∧
      (((connection_enqueue C rc wakes q fd).ret = none ∧
          (connection_enqueue C rc wakes q fd).trace = .mutex_lock :: s) ∨
        ((connection_enqueue C rc wakes q fd).ret ≠ none ∧
          (connection_enqueue C rc wakes q fd).trace = .mutex_lock :: s ++ [.mutex_unlock])) := by
  obtain ⟨s, hs, hm⟩ := enqueue_wait_trace C wakes q [.mutex_lock]
  unfold connection_enqueue
  simp only [hl, ne_eq, not_true_eq_false, if_false]
  rcases hx : enqueue_wait C wakes q [.mutex_lock] with o | ⟨q', tr'⟩
  · simp only [hx] at hm ⊢
    rcases hm with ⟨h1, h2⟩ | ⟨h1, h2⟩
    · exact ⟨s, hs, Or.inl ⟨h1, by simpa using h2⟩⟩
    · exact ⟨s, hs, Or.inr ⟨by simp [h1], by simpa using h2⟩⟩
  · simp only [hx] at hm ⊢
    subst hm
    by_cases hsd : q'.shutdown = 1
    · exact ⟨s ++ [.rd .shutdown], lockFree_append hs (by simp [lockFree]),
        Or.inr (by simp [hsd])⟩
    · refine ⟨s ++ [.rd .shutdown, .rd .write_idx, .wr .client_fds, .rd .write_idx,
        .wr .write_idx, .rd .length, .wr .length, .cond_signal_empty],
        lockFree_append hs (by simp [lockFree]), Or.inr ?_⟩
      simp only [hsd, if_false]
      split_ifs <;> simp

/-- Trace of `connection_dequeue` when its lock call succeeds. -/
theorem dequeue_trace_shape (C : Int) (rc : Rc) (wakes : List Wake) (q : connection_queue_t)
    (hl : rc.lock = 0) :
    ∃ s, lockFree s ∧
      (((connection_dequeue C rc wakes q).ret = none ∧
          (connection_dequeue C rc wakes q).trace = .mutex_lock :: s) ∨
        ((connection_dequeue C rc wakes q).ret ≠ none ∧
          (connection_dequeue C rc wakes q).trace = .mutex_lock :: s ++ [.mutex_unlock])) := by
  obtain ⟨s, hs, hm⟩ := dequeue_wait_trace wakes q [.mutex_lock]
  unfold connection_dequeue
  simp only [hl, ne_eq, not_true_eq_false, if_false]
  rcases hx : dequeue_wait wakes q [.mutex_lock] with o | ⟨q', tr'⟩
  · simp only [hx] at hm ⊢
    rcases hm with ⟨h1, h2⟩ | ⟨h1, h2⟩
    · exact ⟨s, hs, Or.inl ⟨h1, by simpa using h2⟩⟩
    · exact ⟨s, hs, Or.inr ⟨by simp [h1], by simpa using h2⟩⟩
  · simp only [hx] at hm ⊢
    subst hm
    refine ⟨s ++ [.rd .read_idx, .rd .client_fds, .rd .read_idx, .wr .read_idx,
      .rd .length, .wr .length, .cond_signal_full],
      lockFree_append hs (by simp [lockFree]), Or.inr ?_⟩
    split_ifs <;> simp

theorem enqueue_lock_failed (C : Int) (rc : Rc) (wakes : List Wake) (q : connection_queue_t)
    (fd : Int) (hl : rc.lock ≠ 0) :
    connection_enqueue C rc wakes q fd = ⟨some (-1), q, [.mutex_lock]⟩ := by
  simp [connection_enqueue, hl]

theorem dequeue_lock_failed (C : Int) (rc : Rc) (wakes : List Wake) (q : connection_queue_t)
    (hl : rc.lock ≠ 0) :
    connection_dequeue C rc wakes q = ⟨some (-1), q, [.mutex_lock]⟩ := by
  simp [connection_dequeue, hl]

theorem lockFree_count_unlock {s : List Ev} (hs : lockFree s) :
    s.count Ev.mutex_unlock = 0 :=
  List.count_eq_zero.2 fun h => (hs _ h).2 rfl

theorem lockFree_count_lock {s : List Ev} (hs : lockFree s) :
    s.count Ev.mutex_lock = 0 :=
  List.count_eq_zero.2 fun h => (hs _ h).1 rfl

/-- A trace made of a lock call, events other than lock and unlock calls, and
an unlock call holds exactly one lock call and one unlock call, the unlock
call last. -/
theorem locked_section_counts {s : List Ev} (hs : lockFree s) :
    (Ev.mutex_lock :: s ++ [Ev.mutex_unlock]).count Ev.mutex_unlock = 1 ∧
    (Ev.mutex_lock :: s ++ [Ev.mutex_unlock]).count Ev.mutex_lock = 1 ∧
    (Ev.mutex_lock :: s ++ [Ev.mutex_unlock]).getLast? = some Ev.mutex_unlock := by
  refine ⟨?_, ?_, ?_⟩
  · rw [List.cons_append, List.count_cons, List.count_append, lockFree_count_unlock hs]
    simp
  · rw [List.cons_append, List.count_cons, List.count_append, lockFree_count_lock hs]
    simp
  · have h : (Ev.mutex_lock :: s ++ [Ev.mutex_unlock]) =
        (Ev.mutex_lock :: s) ++ [Ev.mutex_unlock] := rfl
    rw [h, List.getLast?_append]
    rfl

theorem guarded_lockFree_append {s : List Ev} (hs : lockFree s) (t : List Ev) :
    guarded true (s ++ t) = guarded true t := by
  induction s with
  | nil => rfl
  | cons e s ih =>
    have hs' : lockFree s := fun x hx => hs x (List.mem_cons_of_mem _ hx)
    have he := hs e (List.mem_cons_self _ _)
    cases e <;> simp_all [guarded]

theorem guarded_of_shape {tr s : List Ev} (hs : lockFree s)
    (h : tr = Ev.mutex_lock :: s ∨ tr = Ev.mutex_lock :: s ++ [Ev.mutex_unlock]) :
    guarded false tr = true := by
  rcases h with h | h
  · have := guarded_lockFree_append hs []
    rw [List.append_nil] at this
    rw [h]
    simpa [guarded] using this
  · rw [h, List.cons_append]
    simp [guarded, guarded_lockFree_append hs]

/-- C11: lock released on every exit. Whatever the pthread calls return and
whatever the wake-ups bring, a `connection_enqueue` or `connection_dequeue`
whose `pthread_mutex_lock` succeeded and which has returned has called
`pthread_mutex_unlock` exactly once, as its last call (this covers the
shutdown-error exits and the exits after a failed `pthread_cond_wait` or
`pthread_cond_signal`); while it is still waiting it has called it zero
times; and when `pthread_mutex_lock` failed it returns -1 with no unlock
call. -/
theorem lock_released_on_every_exit (CAPACITY : Int) (rc : Rc) (wakes : List Wake)
    (q : connection_queue_t) (fd : Int) :
    (rc.lock = 0 → (connection_enqueue CAPACITY rc wakes q fd).ret ≠ none →
      (connection_enqueue CAPACITY rc wakes q fd).trace.count Ev.mutex_unlock = 1 ∧
      (connection_enqueue CAPACITY rc wakes q fd).trace.count Ev.mutex_lock = 1 ∧
      (connection_enqueue CAPACITY rc wakes q fd).trace.getLast? = some Ev.mutex_unlock) ∧
    (rc.lock = 0 → (connection_enqueue CAPACITY rc wakes q fd).ret = none →
      (connection_enqueue CAPACITY rc wakes q fd).trace.count Ev.mutex_unlock = 0) ∧
    (rc.lock ≠ 0 →
      (connection_enqueue CAPACITY rc wakes q fd).ret = some (-1) ∧
      (connection_enqueue CAPACITY rc wakes q fd).trace.count Ev.mutex_unlock = 0) ∧
    (rc.lock = 0 → (connection_dequeue CAPACITY rc wakes q).ret ≠ none →
      (connection_dequeue CAPACITY rc wakes q).trace.count Ev.mutex_unlock = 1 ∧
      (connection_dequeue CAPACITY rc wakes q).trace.count Ev.mutex_lock = 1 ∧
      (connection_dequeue CAPACITY rc wakes q).trace.getLast? = some Ev.mutex_unlock) ∧
    (rc.lock = 0 → (connection_dequeue CAPACITY rc wakes q).ret = none →
      (connection_dequeue CAPACITY rc wakes q).trace.count Ev.mutex_unlock = 0) ∧
    (rc.lock ≠ 0 →
      (connection_dequeue CAPACITY rc wakes q).ret = some (-1) ∧
      (connection_dequeue CAPACITY rc wakes q).trace.count Ev.mutex_unlock = 0) := by
  refine ⟨?_, ?_, ?_, ?_, ?_, ?_⟩
  · intro hl hret
    obtain ⟨s, hs, h | h⟩ := enqueue_trace_shape CAPACITY rc wakes q fd hl
    · exact absurd h.1 hret
    · rw [h.2]; exact locked_section_counts hs
  · intro hl hret
    obtain ⟨s, hs, h | h⟩ := enqueue_trace_shape CAPACITY rc wakes q fd hl
    · rw [h.2, List.count_cons, lockFree_count_unlock hs]; simp
    · exact absurd hret h.1
  · intro hl
    rw [enqueue_lock_failed CAPACITY rc wakes q fd hl]
    exact ⟨rfl, by simp⟩
  · intro hl hret
    obtain ⟨s, hs, h | h⟩ := dequeue_trace_shape CAPACITY rc wakes q hl
    · exact absurd h.1 hret
    · rw [h.2]; exact locked_section_counts hs
  · intro hl hret
    obtain ⟨s, hs, h | h⟩ := dequeue_trace_shape CAPACITY rc wakes q hl
    · rw [h.2, List.count_cons, lockFree_count_unlock hs]; simp
    · exact absurd hret h.1
  · intro hl
    rw [dequeue_lock_failed CAPACITY rc wakes q hl]
    exact ⟨rfl, by simp⟩

/-- Witness for C11: an enqueue on a fresh queue of capacity 5 whose
`pthread_cond_signal` returns 5 returns -1 after one unlock call, its last
call. -/
theorem lock_released_on_every_exit_witness :
    (⟨0, 5, 0⟩ : Rc).lock = 0 ∧
    (connection_enqueue 5 ⟨0, 5, 0⟩ [] (zeroed 5) 7).ret = some (-1) ∧
    ((connection_enqueue 5 ⟨0, 5, 0⟩ [] (zeroed 5) 7).trace.count Ev.mutex_unlock = 1 ∧
      (connection_enqueue 5 ⟨0, 5, 0⟩ [] (zeroed 5) 7).trace.count Ev.mutex_lock = 1 ∧
      (connection_enqueue 5 ⟨0, 5, 0⟩ [] (zeroed 5) 7).trace.getLast? =
        some Ev.mutex_unlock) :=
  ⟨rfl, by decide,
    (lock_released_on_every_exit 5 ⟨0, 5, 0⟩ [] (zeroed 5) 7).1 rfl (by decide)⟩

/-- C12 (the code departs from the claim): in `connection_enqueue` and
`connection_dequeue` every access to a shared field happens while the queue
lock is held, whatever the pthread calls return and the wake-ups bring; but
`connection_queue_shutdown` never calls `pthread_mutex_lock`: its first
action is the write of the shutdown flag, made without the lock, followed by
the two broadcasts. -/
theorem shutdown_flag_written_without_lock :
    (∀ (CAPACITY : Int) (rc : Rc) (wakes : List Wake) (q : connection_queue_t) (fd : Int),
      guarded false (connection_enqueue CAPACITY rc wakes q fd).trace = true) ∧
    (∀ (CAPACITY : Int) (rc : Rc) (wakes : List Wake) (q : connection_queue_t),
      guarded false (connection_dequeue CAPACITY rc wakes q).trace = true) ∧
    (∀ (rc : ShutdownRc) (q : connection_queue_t),
      (connection_queue_shutdown rc q).trace =
        [.wr .shutdown, .cond_broadcast_full, .cond_broadcast_empty] ∧
      guarded false (connection_queue_shutdown rc q).trace = false ∧
      Ev.mutex_lock ∉ (connection_queue_shutdown rc q).trace ∧
      (connection_queue_shutdown rc q).queue.shutdown = 1) := by
  refine ⟨?_, ?_, ?_⟩
  · intro C rc wakes q fd
    by_cases hl : rc.lock = 0
    · obtain ⟨s, hs, h | h⟩ := enqueue_trace_shape C rc wakes q fd hl
      · exact guarded_of_shape hs (Or.inl h.2)
      · exact guarded_of_shape hs (Or.inr h.2)
    · rw [enqueue_lock_failed C rc wakes q fd hl]; rfl
  · intro C rc wakes q
    by_cases hl : rc.lock = 0
    · obtain ⟨s, hs, h | h⟩ := dequeue_trace_shape C rc wakes q hl
      · exact guarded_of_shape hs (Or.inl h.2)
      · exact guarded_of_shape hs (Or.inr h.2)
    · rw [dequeue_lock_failed C rc wakes q hl]; rfl
  · intro rc q
    refine ⟨rfl, rfl, ?_, rfl⟩
    simp [connection_queue_shutdown]

end ConnectionQueue
